import Mathlib

set_option linter.unusedVariables false

/- Verification of the PyTRex control-plane transport layer:
   batch chunking and response validation from
   pytrex/api/trex_stl_jsonrpc_client.py, and the async subscriber
   state machine, barrier handshake and stats snapshot router from
   pytrex/api/trex_stl_async_client.py. -/

namespace PyTRex

/-! ## Batch chunking (`BatchMessage.invoke`)

Requests are modelled abstractly: a request envelope is a value of a type
`M` together with its serialized byte length `len : M → Nat`
(`len(json.dumps(msg))` in the source).  The synchronous channel answers a
transmitted chunk with one response per request, in order (the JSON-RPC
batch contract the spec relies on); this is modelled by a response
function `respond : M → R`, so `send_msg` on a chunk is `chunk.map respond`. -/

namespace Batch

/-- `rpc_client.send_msg` applied to one serialized chunk: the server
returns the responses of the chunk's requests, in order. -/
def send_msg {M R : Type} (respond : M → R) (chunk : List M) : List R :=
  chunk.map respond

/-- The chunking loop of `BatchMessage.invoke` (`trex_stl_jsonrpc_client.py`,
lines 27-42), with the accumulator variables `response_batch`, `size` and
`new_batch` made explicit.  Each iteration does
`size += len(json.dumps(msg)); new_batch.append(msg)` and, when
`size > chunk_size`, transmits `new_batch` and resets both accumulators.
After the loop, a non-empty remainder is transmitted — and, exactly as in
the source, its responses are *assigned* to `response_batch`
(`response_batch = self.rpc_client.send_msg(batch_json)`), discarding the
responses accumulated so far. -/
def invokeLoop {M R : Type} (respond : M → R) (len : M → Nat) (chunk_size : Nat) :
    List M → List R → Nat → List M → List R
  | [], response_batch, _size, new_batch =>
      if new_batch.isEmpty then response_batch
      else send_msg respond new_batch
  | msg :: rest, response_batch, size, new_batch =>
      let size1 := size + len msg
      let new_batch1 := new_batch ++ [msg]
      if chunk_size < size1 then
        invokeLoop respond len chunk_size rest
          (response_batch ++ send_msg respond new_batch1) 0 []
      else
        invokeLoop respond len chunk_size rest response_batch size1 new_batch1

/-- `BatchMessage.invoke(chunk_size, retry)`: raises (`none`) when the
client is not connected; with a non-zero `chunk_size` runs the chunking
loop, otherwise transmits the whole batch as one message.  The `retry`
argument is only forwarded on the unchunked path, as in the source. -/
def invoke {M R : Type} (connected : Bool) (respond : M → R) (len : M → Nat)
    (chunk_size : Nat) (retry : Nat) (batch_list : List M) : Option (List R) :=
  if ¬ connected then none
  else if chunk_size ≠ 0 then
    some (invokeLoop respond len chunk_size batch_list [] 0 [])
  else
    some (send_msg respond batch_list)

/-- The same chunking loop, observed at the level of the transmitted
groups: it returns the list of chunks `send_msg` is called on, in
transmission order (same flush points as `invokeLoop`). -/
def invokeGroupsLoop {M : Type} (len : M → Nat) (chunk_size : Nat) :
    List M → List (List M) → Nat → List M → List (List M)
  | [], groups, _size, new_batch =>
      if new_batch.isEmpty then groups else groups ++ [new_batch]
  | msg :: rest, groups, size, new_batch =>
      let size1 := size + len msg
      let new_batch1 := new_batch ++ [msg]
      if chunk_size < size1 then
        invokeGroupsLoop len chunk_size rest (groups ++ [new_batch1]) 0 []
      else
        invokeGroupsLoop len chunk_size rest groups size1 new_batch1

/-- The sequence of transmitted groups of `BatchMessage.invoke` for a
non-zero chunk size. -/
def invokeGroups {M : Type} (len : M → Nat) (chunk_size : Nat) (batch_list : List M) :
    List (List M) :=
  invokeGroupsLoop len chunk_size batch_list [] 0 []

/-- Accumulated serialized size of a group. -/
def sumLen {M : Type} (len : M → Nat) (g : List M) : Nat :=
  (g.map len).sum

end Batch

/-! ## RPC transport (`JsonRpcClient`)

The connection state is modelled by a `connected` flag plus a socket
generation counter: `connect` creates a fresh socket (generation bump),
`disconnect` closes it.  The underlying zmq send/recv attempts are
modelled by oracles `Nat → Bool` telling whether the i-th attempt
succeeds or raises `zmq.Again` (timeout). -/

namespace Rpc

/-- Connection state of `JsonRpcClient`: the `connected` flag and a
generation counter identifying the current socket (bumped by every
`connect`, so a changed generation means a fresh socket). -/
structure RpcState where
  connected : Bool
  sockGen : Nat
deriving DecidableEq, Repr

/-- `JsonRpcClient.disconnect`: closes the socket and clears the flag
when connected, otherwise does nothing. -/
def disconnect (s : RpcState) : RpcState :=
  if s.connected then { s with connected := false } else s

/-- `JsonRpcClient.connect`: disconnects first when already connected,
then opens a fresh socket (new generation) and sets the flag. -/
def connect (s : RpcState) : RpcState :=
  let s1 := if s.connected then disconnect s else s
  { s1 with connected := true, sockGen := s1.sockGen + 1 }

/-- `JsonRpcClient.reconnect`: `connect` with the current parameters. -/
def reconnect (s : RpcState) : RpcState :=
  connect s

/-- The `except KeyboardInterrupt` handler of `JsonRpcClient.send_raw_msg`:
the state effect applied before the interrupt is re-raised
(`self.reconnect(); raise e`). -/
def send_raw_msg_on_interrupt (s : RpcState) : RpcState :=
  reconnect s

/-- Result of one of the two retry loops of `_send_raw_msg_safe`:
either some attempt succeeded, or the retry budget was exhausted;
in both cases the total number of attempts made is recorded. -/
inductive AttemptResult where
  | success (attempts : Nat)
  | exhausted (attempts : Nat)
deriving DecidableEq, Repr

/-- One `while True: try ... except zmq.Again` retry loop of
`_send_raw_msg_safe`.  In the source, `retry_left` starts at `retry`, each
timed-out attempt decrements it, and the loop gives up when it drops below
zero — i.e. up to `retry + 1` attempts are made.  Here `fuel` is
`retry_left + 1` (the number of attempts still allowed) and `made` counts
the attempts already made; `ok i` says whether the i-th attempt succeeds. -/
def attemptLoop (ok : Nat → Bool) (made : Nat) : Nat → AttemptResult
  | 0 => .exhausted made
  | fuel + 1 =>
      if ok made then .success (made + 1)
      else attemptLoop ok (made + 1) fuel

/-- Typed failures of the send path. -/
inductive RpcFailure where
  | sendFailed
  | recvFailed
deriving DecidableEq, Repr

/-- Observable outcome of `_send_raw_msg_safe`: the resulting connection
state, the number of send and receive attempts made, and the failure
raised (if any). -/
structure SendOutcome where
  state : RpcState
  sendAttempts : Nat
  recvAttempts : Nat
  failure : Option RpcFailure
deriving DecidableEq, Repr

/-- `JsonRpcClient._send_raw_msg_safe(msg, retry)` (lines 154-185): first
the send retry loop, then — only if the send succeeded — the receive
retry loop, each with its own `retry_left = retry` budget; exhausting
either budget calls `self.disconnect()` and raises the corresponding
failure.  (The message is always `bytes` here: every caller passes the
encoded, possibly compressed, buffer.) -/
def send_raw_msg_safe (sendOk recvOk : Nat → Bool) (retry : Nat) (s : RpcState) :
    SendOutcome :=
  match attemptLoop sendOk 0 (retry + 1) with
  | .exhausted n => ⟨disconnect s, n, 0, some .sendFailed⟩
  | .success n =>
      match attemptLoop recvOk 0 (retry + 1) with
      | .exhausted m => ⟨disconnect s, n, m, some .recvFailed⟩
      | .success m => ⟨s, n, m, none⟩

/-- Outcome of `JsonRpcClient.check_response`: the response passed
validation, was rejected as malformed, or carried a server-reported
error (surfaced with the chosen message).  `keyError` marks the corner
where the server's error object has neither key the code reads
(`response["error"]["message"]` would raise `KeyError` in the source). -/
inductive CheckResult where
  | passed
  | malformed
  | rpcError (msg : String)
  | keyError
deriving DecidableEq, Repr

/-- A decoded response object, as far as `check_response` inspects it:
the `jsonrpc` field (absent modelled as `none`), the optional `error`
object (its fields as a key/value list) and the optional `result`
(opaque payload — only its presence matters). -/
structure Response where
  jsonrpc : Option String
  error : Option (List (String × String))
  result : Option String
deriving DecidableEq, Repr

/-- `JsonRpcClient.check_response` (lines 187-202): reject when the
`jsonrpc` field differs from "2.0"; surface a present `error`, preferring
its `specific_err` field over `message`; otherwise require a `result`. -/
def check_response (r : Response) : CheckResult :=
  if r.jsonrpc ≠ some "2.0" then .malformed
  else
    match r.error with
    | some e =>
        match e.lookup "specific_err" with
        | some se => .rpcError se
        | none =>
            match e.lookup "message" with
            | some msg => .rpcError msg
            | none => .keyError
    | none =>
        if r.result.isSome then .passed else .malformed

end Rpc

/-! ## Async subscriber (`CTRexAsyncClient`)

The background receive loop `_run` is modelled as a step function on an
explicit state, driven by a list of events: a message arrival (with its
wall-clock timestamp), a receive timeout (`zmq.Again`), or context
termination (`zmq.ContextTerminated`).  Calls into the event handler
(`on_async_alive`, `on_async_timeout`, dispatch handlers) are recorded as
emitted notifications.  Message decompression is transparent and is not
modelled (the decoded message is the event's payload). -/

namespace Async

/-- The thread state constants `THREAD_STATE_ACTIVE/ZOMBIE/DEAD`. -/
inductive TState where
  | active
  | zombie
  | dead
deriving DecidableEq, Repr

/-- A decoded telemetry message: `{name, type, data, baseline}`.  The
`type` field is the opaque payload the barrier key travels in; it is
modelled as a number (the key is `random.getrandbits(32)`). -/
structure Msg where
  name : String
  type_ : Nat
  data : String
  baseline : Bool
deriving DecidableEq, Repr

/-- A call made by the receive loop into the registered event handler. -/
inductive Notif where
  | alive
  | timeoutNotif (sec : Nat)
  | statsUpdate (data : String) (baseline : Bool)
  | eventNotif (type_ : Nat) (data : String)
  | rxStats (data : String) (baseline : Bool)
  | latencyStats (data : String) (baseline : Bool)
  | crash
deriving DecidableEq, Repr

/-- Mutable state of `CTRexAsyncClient` shared with its receive loop:
the thread state flag, the `connected` flag, the loop-local `got_data`
edge flag, the latest-snapshot store `raw_snapshot`, the current barrier
token `async_barrier` (key and `ack` flag) and `last_data_recv_ts`. -/
structure AsyncState where
  t_state : TState
  connected : Bool
  got_data : Bool
  raw_snapshot : List (String × String)
  async_barrier : Option (Nat × Bool)
  last_data_recv_ts : Option Nat
deriving DecidableEq, Repr

/-- `CTRexAsyncClient.set_as_zombie`: clears `last_data_recv_ts` and sets
the thread state to ZOMBIE (unconditionally, from any state). -/
def set_as_zombie (s : AsyncState) : AsyncState :=
  { s with last_data_recv_ts := none, t_state := .zombie }

/-- `CTRexAsyncClient.disconnect`: a no-op when not connected; otherwise
marks the thread DEAD (terminating the loop), tears down the context and
clears `connected`. -/
def disconnect (s : AsyncState) : AsyncState :=
  if ¬ s.connected then s
  else { s with t_state := .dead, connected := false }

/-- `CTRexAsyncClient.connect`: disconnects first when already connected,
then marks the thread ACTIVE and starts the receive loop (whose local
`got_data` starts out false).  The subsequent startup `barrier()` call it
makes is modelled separately by `barrierLoop`. -/
def connect (s : AsyncState) : AsyncState :=
  let s1 := if s.connected then disconnect s else s
  { s1 with t_state := .active, connected := true, got_data := false }

/-- `CTRexAsyncClient.handle_async_barrier(type, data)`: marks the
current token acknowledged when the message's `type` field equals the
token's key. -/
def handle_async_barrier (barrier : Nat × Bool) (type_ : Nat) : Nat × Bool :=
  if barrier.1 = type_ then (barrier.1, true) else barrier

/-- In-place dictionary assignment `d[k] = v` on an insertion-ordered
key/value list. -/
def updateAssoc {α β : Type} [DecidableEq α] : List (α × β) → α → β → List (α × β)
  | [], k, v => [(k, v)]
  | (k1, v1) :: rest, k, v =>
      if k1 = k then (k, v) :: rest else (k1, v1) :: updateAssoc rest k v

/-- `CTRexAsyncClient.__dispatch(name, type, data, baseline)`: route the
message by its `name` tag; unknown tags are dropped.  A barrier message
while `async_barrier` is `None` would raise in the source
(`self.async_barrier["key"]` on `None`), which the thread wrapper turns
into the crash path — recorded here as a `crash` notification. -/
def dispatch (s : AsyncState) (m : Msg) : AsyncState × List Notif :=
  if m.name = "trex-global" then (s, [.statsUpdate m.data m.baseline])
  else if m.name = "trex-event" then (s, [.eventNotif m.type_ m.data])
  else if m.name = "trex-barrier" then
    match s.async_barrier with
    | some b => ({ s with async_barrier := some (handle_async_barrier b m.type_) }, [])
    | none => (s, [.crash])
  else if m.name = "flow_stats" then (s, [.rxStats m.data m.baseline])
  else if m.name = "latency_stats" then (s, [.latencyStats m.data m.baseline])
  else (s, [])

/-- An event observed by one iteration of the `_run` loop. -/
inductive Event where
  | recv (now : Nat) (m : Msg)
  | recvTimeout
  | ctxTerm
deriving DecidableEq, Repr

/-- One iteration of the `_run` loop body (lines 245-294), entered with
`t_state ≠ DEAD`.  On a received message: record `last_data_recv_ts`;
while ZOMBIE drain and `continue` without any further effect; otherwise
fire the edge-triggered `on_async_alive` (once per gap), store the
latest snapshot under the message's `name`, and dispatch.  On a receive
timeout: fire the edge-triggered `on_async_timeout` once per gap (note:
this path does not consult the ZOMBIE flag).  On context termination the
loop breaks (the source asserts the state is not ACTIVE; a violated
assertion would crash the thread). -/
def loopStep (s : AsyncState) (ev : Event) : AsyncState × List Notif :=
  match ev with
  | .recv now m =>
      let s1 := { s with last_data_recv_ts := some now }
      if s1.t_state = .zombie then (s1, [])
      else
        let aliveOut : List Notif := if ¬ s1.got_data then [.alive] else []
        let s2 := { s1 with got_data := true }
        let s3 := { s2 with raw_snapshot := updateAssoc s2.raw_snapshot m.name m.data }
        let d := dispatch s3 m
        (d.1, aliveOut ++ d.2)
  | .recvTimeout =>
      if s.got_data then ({ s with got_data := false }, [.timeoutNotif 3])
      else (s, [])
  | .ctxTerm =>
      if s.t_state = .active then (s, [.crash]) else (s, [])

/-- The `_run` loop over a sequence of events: stops when the state is
DEAD (while-condition), on context termination (break) and on a crash
(exception propagates out of the loop). -/
def runLoop (s : AsyncState) : List Event → AsyncState × List Notif
  | [] => (s, [])
  | ev :: rest =>
      if s.t_state = .dead then (s, [])
      else
        let r1 := loopStep s ev
        if ev = .ctxTerm ∨ .crash ∈ r1.2 then r1
        else
          let r2 := runLoop r1.1 rest
          (r2.1, r1.2 ++ r2.2)

/-- Outcome of `CTRexAsyncClient.barrier`: the while-condition observed
the acknowledgement (iteration index recorded); the deadline check
raised the timeout error (clock value recorded); or `transmit` returned
a falsy result which is returned as-is. -/
inductive BarrierOutcome where
  | ackObserved (iter : Nat)
  | timedOut (clock : Nat)
  | transmitFailed (iter : Nat)
deriving DecidableEq, Repr

/-- The retry loop of `CTRexAsyncClient.barrier(timeout, baseline)`
(lines 341-355), iteration-indexed.  Per outer iteration `k`:
the `while not ack` condition reads the token's `ack` flag (`ackAt k`,
set concurrently by `handle_async_barrier`); a falsy `transmit` result
(`rcOk k = false`) is returned; the 100-step millisecond poll loop only
spins (its early break re-reads the same monotone flag the next
while-condition reads, so it affects timing only); then the deadline
check compares the clock (`clockAt k`) against `expr = start + timeout`
and raises on `clockAt k > expr`.  `fuel` bounds the number of modelled
iterations; `none` means the loop was still running. -/
def barrierLoop (ackAt rcOk : Nat → Bool) (clockAt : Nat → Nat) (expr : Nat) :
    Nat → Nat → Option BarrierOutcome
  | _, 0 => none
  | k, fuel + 1 =>
      if ackAt k then some (.ackObserved k)
      else if ¬ rcOk k then some (.transmitFailed k)
      else if expr < clockAt k then some (.timedOut (clockAt k))
      else barrierLoop ackAt rcOk clockAt expr (k + 1) fuel

end Async

/-! ## Stats snapshot router (`CTRexAsyncStatsManager.__handle_snapshot`)

The routing regex is `re.search(r"(.*)\-([0-8])", key)`: the key matches
iff it contains a dash immediately followed by a digit 0-8; with the
greedy `(.*)`, `group(1)` is everything before the *last* such dash and
`group(2)` is that digit (anything after it is discarded). -/

namespace Stats

/-- The character class `[0-8]` of the port-suffix regex. -/
def isPortDigit (c : Char) : Bool :=
  decide ('0' ≤ c) && decide (c ≤ '8')

/-- `re.search(r"(.*)\-([0-8])", key)` on the key's characters: `none`
when no dash followed by a digit 0-8 occurs; otherwise the pair of
`group(1)` (the characters before the rightmost such dash — rightmost
because `(.*)` is greedy) and `group(2)` (the digit). -/
def findPortSplit : List Char → Option (List Char × Char)
  | [] => none
  | c :: rest =>
      match findPortSplit rest with
      | some (pre, d) => some (c :: pre, d)
      | none =>
          match rest with
          | d :: _ => if c = '-' ∧ isPortDigit d then some ([], d) else none
          | [] => none

/-- The property the claim states the router keys on: the key contains a
dash immediately followed by a single digit in the range 0-8. -/
def containsDashDigit : List Char → Bool
  | [] => false
  | c :: rest =>
      match rest with
      | d :: _ => (c = '-' && isPortDigit d) || containsDashDigit rest
      | [] => false

/-- The regex match of `__handle_snapshot` on a key string. -/
def portMatch (key : String) : Option (String × Char) :=
  match findPortSplit key.data with
  | some (pre, d) => some (String.mk pre, d)
  | none => none

/-- The partitioning loop of `__handle_snapshot` (lines 105-121): walk
the snapshot's items in order; a key matching the port regex goes into
`port_stats[group(2)][group(1)]`, every other key into
`general_stats[key]`. -/
def routeItems (general_stats : List (String × Int))
    (port_stats : List (Char × List (String × Int))) :
    List (String × Int) → List (String × Int) × List (Char × List (String × Int))
  | [] => (general_stats, port_stats)
  | (key, value) :: rest =>
      match portMatch key with
      | some (field_name, port_id) =>
          let bucket :=
            match port_stats.lookup port_id with
            | some b => b
            | none => []
          routeItems general_stats
            (Async.updateAssoc port_stats port_id (Async.updateAssoc bucket field_name value))
            rest
      | none =>
          routeItems (Async.updateAssoc general_stats key value) port_stats rest

/-- `CTRexAsyncStatsManager.__handle_snapshot`, observed as the produced
general bucket and per-port buckets (the subsequent `update` calls store
these snapshots per scope). -/
def handle_snapshot (snapshot : List (String × Int)) :
    List (String × Int) × List (Char × List (String × Int)) :=
  routeItems [] [] snapshot

end Stats

/-! ## Theorems -/

namespace Batch

lemma sumLen_append {M : Type} (len : M → Nat) (a b : List M) :
    sumLen len (a ++ b) = sumLen len a + sumLen len b := by
  simp [sumLen]

lemma sumLen_take_le {M : Type} (len : M → Nat) (l : List M) (j : Nat) :
    sumLen len (l.take j) ≤ sumLen len l := by
  conv_rhs => rw [← List.take_append_drop j l]
  rw [sumLen_append]
  exact Nat.le_add_right _ _

lemma invokeGroupsLoop_spec {M : Type} (len : M → Nat) (c : Nat) :
    ∀ (rest : List M) (groups : List (List M)) (size : Nat) (nb : List M),
      size = sumLen len nb →
      sumLen len nb ≤ c →
      (∀ g ∈ groups, c < sumLen len g) →
      (∀ g ∈ groups, ∀ j < g.length, sumLen len (g.take j) ≤ c) →
      (invokeGroupsLoop len c rest groups size nb).flatten
          = groups.flatten ++ (nb ++ rest) ∧
      (∀ g ∈ (invokeGroupsLoop len c rest groups size nb).dropLast,
          c < sumLen len g) ∧
      (∀ g ∈ invokeGroupsLoop len c rest groups size nb,
          ∀ j < g.length, sumLen len (g.take j) ≤ c)
  | [], groups, size, nb, hs, hnb, hg, hp => by
      simp only [invokeGroupsLoop]
      by_cases he : nb.isEmpty
      · rw [if_pos he]
        rw [List.isEmpty_iff] at he
        subst he
        refine ⟨by simp, ?_, hp⟩
        intro g hgmem
        exact hg g ((List.dropLast_sublist groups).subset hgmem)
      · rw [if_neg he]
        refine ⟨by simp, ?_, ?_⟩
        · intro g hgmem
          rw [List.dropLast_concat] at hgmem
          exact hg g hgmem
        · intro g hgmem j hj
          rcases List.mem_append.1 hgmem with h | h
          · exact hp g h j hj
          · rw [List.mem_singleton] at h
            subst h
            exact le_trans (sumLen_take_le len g j) hnb
  | msg :: rest, groups, size, nb, hs, hnb, hg, hp => by
      simp only [invokeGroupsLoop]
      by_cases hflush : c < size + len msg
      · rw [if_pos hflush]
        have hnew : c < sumLen len (nb ++ [msg]) := by
          rw [sumLen_append, ← hs]
          simpa [sumLen] using hflush
        have hg1 : ∀ g ∈ groups ++ [nb ++ [msg]], c < sumLen len g := by
          intro g hgmem
          rcases List.mem_append.1 hgmem with h | h
          · exact hg g h
          · rw [List.mem_singleton] at h; subst h; exact hnew
        have hp1 : ∀ g ∈ groups ++ [nb ++ [msg]], ∀ j < g.length,
            sumLen len (g.take j) ≤ c := by
          intro g hgmem j hj
          rcases List.mem_append.1 hgmem with h | h
          · exact hp g h j hj
          · rw [List.mem_singleton] at h
            subst h
            have hjle : j ≤ nb.length := by
              simpa [Nat.lt_succ_iff] using hj
            rw [List.take_append_of_le_length hjle]
            exact le_trans (sumLen_take_le len nb j) hnb
        have ih := invokeGroupsLoop_spec len c rest (groups ++ [nb ++ [msg]]) 0 []
          rfl (Nat.zero_le c) hg1 hp1
        refine ⟨?_, ih.2.1, ih.2.2⟩
        rw [ih.1]
        simp
      · rw [if_neg hflush]
        have hs1 : size + len msg = sumLen len (nb ++ [msg]) := by
          rw [sumLen_append, hs]
          simp [sumLen]
        have hnb1 : sumLen len (nb ++ [msg]) ≤ c := by
          rw [← hs1]
          exact Nat.le_of_not_lt hflush
        have ih := invokeGroupsLoop_spec len c rest groups (size + len msg)
          (nb ++ [msg]) hs1 hnb1 hg hp
        refine ⟨?_, ih.2.1, ih.2.2⟩
        rw [ih.1]
        simp

end Batch

/-- Claim C1 (code bug): with chunk size 5 and a batch of two requests of
serialized sizes 10 and 3, the first request is flushed as its own chunk
and the second is the remainder; `BatchMessage.invoke` returns only the
remainder chunk's responses (`response_batch =` instead of
`response_batch +=` on the final flush), while invoking each request
individually yields both responses — so the flattened chunked result is
not the concatenation of the per-chunk responses and loses the earlier
chunk. -/
theorem C1_batch_invoke_loses_earlier_chunks :
    Batch.invoke true (fun m : Nat => m) (fun m => if m = 0 then 10 else 3) 5 0 [0, 1]
        = some [1] ∧
    Batch.invoke true (fun m : Nat => m) (fun m => if m = 0 then 10 else 3) 5 0 [0]
        = some [0] ∧
    Batch.invoke true (fun m : Nat => m) (fun m => if m = 0 then 10 else 3) 5 0 [1]
        = some [1] ∧
    some [1] ≠ some [(0 : Nat), 1] := by
  refine ⟨by decide, by decide, by decide, by decide⟩

/-- Claim C2, counterexample: with chunk size 5 and two envelopes of
serialized size 3 each (every single envelope fits within the threshold),
the loop transmits the single group of both envelopes, whose accumulated
serialized size 6 exceeds the threshold — the group is flushed after the
threshold is exceeded, not before, and it contains the envelope that
caused the excess. -/
theorem C2_counterexample :
    Batch.invokeGroups (fun _ : Nat => 3) 5 [0, 1] = [[0, 1]] ∧
    5 < Batch.sumLen (fun _ : Nat => 3) [0, 1] ∧
    Batch.sumLen (fun _ : Nat => 3) [0] ≤ 5 ∧
    Batch.sumLen (fun _ : Nat => 3) [1] ≤ 5 := by
  refine ⟨by decide, by decide, by decide, by decide⟩

/-- Claim C2, amended: the loop appends each envelope to the current
group and flushes the group — including that envelope — as soon as the
accumulated serialized size exceeds the threshold, finally flushing any
remainder.  Consequently the transmitted groups concatenate, in order,
to the original batch; every transmitted group except the last has
accumulated size exceeding the threshold; and every proper prefix of any
transmitted group fits within the threshold (the flush happens at the
first excess). -/
theorem C2_chunk_groups_amended {M : Type} (len : M → Nat) (chunk_size : Nat)
    (batch_list : List M) :
    (Batch.invokeGroups len chunk_size batch_list).flatten = batch_list ∧
    (∀ g ∈ (Batch.invokeGroups len chunk_size batch_list).dropLast,
        chunk_size < Batch.sumLen len g) ∧
    (∀ g ∈ Batch.invokeGroups len chunk_size batch_list,
        ∀ j < g.length, Batch.sumLen len (g.take j) ≤ chunk_size) := by
  have h := Batch.invokeGroupsLoop_spec len chunk_size batch_list [] 0 []
    rfl (Nat.zero_le chunk_size) (by simp) (by simp)
  simpa [Batch.invokeGroups] using h

namespace Rpc

lemma attemptLoop_allFail (made fuel : Nat) :
    attemptLoop (fun _ => false) made fuel = .exhausted (made + fuel) := by
  induction fuel generalizing made with
  | zero => simp [attemptLoop]
  | succ f ih => simp [attemptLoop, ih]; omega

lemma disconnect_connected (s : RpcState) : (disconnect s).connected = false := by
  by_cases h : s.connected <;> simp [disconnect, h]

end Rpc

/-- Claim C3: for every retry budget N, when every underlying send
attempt times out, `_send_raw_msg_safe` makes exactly N+1 send attempts
(the initial attempt plus N retries), fails with the send-failed error
and leaves the transport disconnected; symmetrically, when the send goes
through and every receive attempt times out, it makes exactly N+1
receive attempts, fails with the receive-failed error and leaves the
transport disconnected. -/
theorem C3_retry_exhaustion (N : Nat) (recvOk : Nat → Bool) (s : Rpc.RpcState) :
    (Rpc.send_raw_msg_safe (fun _ => false) recvOk N s).sendAttempts = N + 1 ∧
    (Rpc.send_raw_msg_safe (fun _ => false) recvOk N s).failure
        = some .sendFailed ∧
    (Rpc.send_raw_msg_safe (fun _ => false) recvOk N s).state.connected = false ∧
    (Rpc.send_raw_msg_safe (fun _ => true) (fun _ => false) N s).recvAttempts = N + 1 ∧
    (Rpc.send_raw_msg_safe (fun _ => true) (fun _ => false) N s).failure
        = some .recvFailed ∧
    (Rpc.send_raw_msg_safe (fun _ => true) (fun _ => false) N s).state.connected
        = false := by
  have hsend : Rpc.attemptLoop (fun _ => false) 0 (N + 1) = .exhausted (N + 1) := by
    simpa using Rpc.attemptLoop_allFail 0 (N + 1)
  have hsendOk : Rpc.attemptLoop (fun _ => true) 0 (N + 1) = .success 1 := by
    simp [Rpc.attemptLoop]
  refine ⟨?_, ?_, ?_, ?_, ?_, ?_⟩ <;>
    simp [Rpc.send_raw_msg_safe, hsend, hsendOk, Rpc.disconnect_connected]

/-- Claim C4: a decoded response whose `jsonrpc` field differs from the
expected constant "2.0", or which contains neither a `result` field nor
an `error` field, is rejected by `check_response` as malformed and is
never passed to the caller as a success. -/
theorem C4_malformed_rejection (r : Rpc.Response)
    (h : r.jsonrpc ≠ some "2.0" ∨ (r.error = none ∧ r.result = none)) :
    Rpc.check_response r = .malformed ∧ Rpc.check_response r ≠ .passed := by
  have hm : Rpc.check_response r = .malformed := by
    rcases h with h | ⟨he, hr⟩
    · simp [Rpc.check_response, h]
    · by_cases hv : r.jsonrpc = some "2.0"
      · simp [Rpc.check_response, hv, he, hr]
      · simp [Rpc.check_response, hv]
  exact ⟨hm, by simp [hm]⟩

/-- Witness for C4: the response with the right protocol version but
neither `result` nor `error` is rejected as malformed. -/
theorem C4_malformed_rejection_witness :
    Rpc.check_response ⟨some "2.0", none, none⟩ = .malformed ∧
    Rpc.check_response ⟨some "2.0", none, none⟩ ≠ .passed :=
  C4_malformed_rejection ⟨some "2.0", none, none⟩ (Or.inr ⟨rfl, rfl⟩)

/-- Claim C6, counterexample: a send on a connected transport that is
interrupted by `KeyboardInterrupt` runs `self.reconnect()` before
re-raising, so the transport is left *connected* (on a fresh socket),
not in a disconnected state. -/
theorem C6_counterexample :
    (Rpc.send_raw_msg_on_interrupt ⟨true, 0⟩).connected = true ∧
    ¬ (Rpc.send_raw_msg_on_interrupt ⟨true, 0⟩).connected = false := by
  refine ⟨by decide, by decide⟩

/-- Claim C6, amended: an interrupt during the send/receive exchange
restores the socket to a sane state before the interrupt propagates by
reconnecting — the half-used socket is discarded and a fresh one opened
(socket generation bumped), and the transport is left connected, so the
next call uses the fresh exchange rather than a half-written one (and no
explicit reconnect is needed). -/
theorem C6_interrupt_reconnects_amended (s : Rpc.RpcState) :
    (Rpc.send_raw_msg_on_interrupt s).connected = true ∧
    (Rpc.send_raw_msg_on_interrupt s).sockGen = s.sockGen + 1 := by
  by_cases h : s.connected <;>
    simp [Rpc.send_raw_msg_on_interrupt, Rpc.reconnect, Rpc.connect,
      Rpc.disconnect, h]

namespace Async

lemma dispatch_t_state (s : AsyncState) (m : Msg) :
    (dispatch s m).1.t_state = s.t_state := by
  unfold dispatch
  split_ifs <;> try rfl
  cases s.async_barrier <;> rfl

lemma loopStep_t_state (s : AsyncState) (ev : Event) :
    (loopStep s ev).1.t_state = s.t_state := by
  cases ev with
  | recv now m =>
      simp only [loopStep]
      by_cases hz : ({ s with last_data_recv_ts := some now } : AsyncState).t_state
          = TState.zombie
      · rw [if_pos hz]
      · rw [if_neg hz]
        exact dispatch_t_state _ m
  | recvTimeout => by_cases h : s.got_data <;> simp [loopStep, h]
  | ctxTerm => by_cases h : s.t_state = TState.active <;> simp [loopStep, h]

lemma runLoop_t_state : ∀ (evs : List Event) (s : AsyncState),
    (runLoop s evs).1.t_state = s.t_state
  | [], s => rfl
  | ev :: rest, s => by
      simp only [runLoop]
      by_cases hd : s.t_state = TState.dead
      · rw [if_pos hd]
      · rw [if_neg hd]
        by_cases hb : ev = Event.ctxTerm ∨ Notif.crash ∈ (loopStep s ev).2
        · rw [if_pos hb]
          exact loopStep_t_state s ev
        · rw [if_neg hb]
          rw [runLoop_t_state rest (loopStep s ev).1]
          exact loopStep_t_state s ev

lemma runLoop_zombie : ∀ (evs : List Event) (s : AsyncState),
    s.t_state = TState.zombie →
    ((runLoop s evs).2 = [] ∨ (runLoop s evs).2 = [Notif.timeoutNotif 3]) ∧
    (runLoop s evs).1.raw_snapshot = s.raw_snapshot ∧
    (runLoop s evs).1.async_barrier = s.async_barrier ∧
    (s.got_data = false → (runLoop s evs).2 = [])
  | [], s, hz => by simp [runLoop]
  | ev :: rest, s, hz => by
      have hnd : ¬ s.t_state = TState.dead := by rw [hz]; simp
      cases ev with
      | recv now m =>
          have hz1 : ({ s with last_data_recv_ts := some now } : AsyncState).t_state
              = TState.zombie := hz
          have hstep : loopStep s (.recv now m)
              = ({ s with last_data_recv_ts := some now }, []) := by
            simp [loopStep, hz]
          have ih := runLoop_zombie rest { s with last_data_recv_ts := some now } hz1
          simp only [runLoop, if_neg hnd, hstep]
          simpa using ih
      | recvTimeout =>
          by_cases hg : s.got_data
          · have hstep : loopStep s .recvTimeout
                = ({ s with got_data := false }, [Notif.timeoutNotif 3]) := by
              simp [loopStep, hg]
            have ih := runLoop_zombie rest { s with got_data := false } hz
            simp only [runLoop, if_neg hnd, hstep]
            have hrest : (runLoop { s with got_data := false } rest).2 = [] :=
              ih.2.2.2 rfl
            simp [hrest, ih.2.1, ih.2.2.1, hg]
          · have hstep : loopStep s .recvTimeout = (s, []) := by
              simp [loopStep, hg]
            have ih := runLoop_zombie rest s hz
            simp only [runLoop, if_neg hnd, hstep]
            simpa using ih
      | ctxTerm =>
          have hstep : loopStep s .ctxTerm = (s, []) := by
            have : ¬ s.t_state = TState.active := by rw [hz]; simp
            simp [loopStep, this]
          simp [runLoop, if_neg hnd, hstep]

lemma barrierLoop_step (ackAt rcOk : Nat → Bool) (clockAt : Nat → Nat)
    (expr i fuel : Nat) (h0 : ackAt i = false) (hr0 : rcOk i = true)
    (hc0 : ¬ expr < clockAt i) :
    barrierLoop ackAt rcOk clockAt expr i (fuel + 1)
      = barrierLoop ackAt rcOk clockAt expr (i + 1) fuel := by
  simp [barrierLoop, h0, hr0, hc0]

lemma barrierLoop_ack (ackAt rcOk : Nat → Bool) (clockAt : Nat → Nat) (expr : Nat) :
    ∀ (k i fuel : Nat), ackAt (i + k) = true →
      (∀ j < k, ackAt (i + j) = false) →
      (∀ j < k, rcOk (i + j) = true) →
      (∀ j < k, clockAt (i + j) ≤ expr) →
      barrierLoop ackAt rcOk clockAt expr i (k + fuel + 1)
        = some (.ackObserved (i + k))
  | 0, i, fuel, hk, _, _, _ => by
      have hki : ackAt i = true := by simpa using hk
      simp [barrierLoop, hki]
  | k + 1, i, fuel, hk, ha, hr, hc => by
      have h0 : ackAt i = false := by simpa using ha 0 (Nat.succ_pos k)
      have hr0 : rcOk i = true := by simpa using hr 0 (Nat.succ_pos k)
      have hc0 : ¬ expr < clockAt i := by
        have h := hc 0 (Nat.succ_pos k)
        simp only [Nat.add_zero] at h
        exact Nat.not_lt.mpr h
      have harith : k + 1 + fuel + 1 = (k + fuel + 1) + 1 := by omega
      rw [harith, barrierLoop_step ackAt rcOk clockAt expr i (k + fuel + 1) h0 hr0 hc0]
      have ih := barrierLoop_ack ackAt rcOk clockAt expr k (i + 1) fuel
        (by rw [show i + 1 + k = i + (k + 1) by omega]; exact hk)
        (fun j hj => by
          rw [show i + 1 + j = i + (j + 1) by omega]
          exact ha (j + 1) (by omega))
        (fun j hj => by
          rw [show i + 1 + j = i + (j + 1) by omega]
          exact hr (j + 1) (by omega))
        (fun j hj => by
          rw [show i + 1 + j = i + (j + 1) by omega]
          exact hc (j + 1) (by omega))
      rw [show i + 1 + k = i + (k + 1) by omega] at ih
      simpa using ih

lemma barrierLoop_deadline (ackAt rcOk : Nat → Bool) (clockAt : Nat → Nat)
    (expr : Nat) :
    ∀ (K i fuel : Nat), (∀ j, ackAt j = false) → (∀ j, rcOk j = true) →
      expr < clockAt (i + K) → (∀ j < K, clockAt (i + j) ≤ expr) →
      barrierLoop ackAt rcOk clockAt expr i (K + fuel + 1)
        = some (.timedOut (clockAt (i + K)))
  | 0, i, fuel, ha, hr, hK, _ => by
      have hK0 : expr < clockAt i := by simpa using hK
      simp [barrierLoop, ha i, hr i, hK0]
  | K + 1, i, fuel, ha, hr, hK, hc => by
      have hc0 : ¬ expr < clockAt i := by
        have h := hc 0 (Nat.succ_pos K)
        simp only [Nat.add_zero] at h
        exact Nat.not_lt.mpr h
      have harith : K + 1 + fuel + 1 = (K + fuel + 1) + 1 := by omega
      rw [harith, barrierLoop_step ackAt rcOk clockAt expr i (K + fuel + 1)
        (ha i) (hr i) hc0]
      have ih := barrierLoop_deadline ackAt rcOk clockAt expr K (i + 1) fuel ha hr
        (by rw [show i + 1 + K = i + (K + 1) by omega]; exact hK)
        (fun j hj => by
          rw [show i + 1 + j = i + (j + 1) by omega]
          exact hc (j + 1) (by omega))
      rw [show i + 1 + K = i + (K + 1) by omega] at ih
      simpa using ih

end Async

/-- Claim C5: the barrier handshake.  (i) The dispatch path marks the
outstanding token acknowledged exactly when the barrier message's key
matches it, and never changes the key.  (ii) If the while-condition of
the barrier loop observes the acknowledgement at iteration k — every
earlier poll saw it unset, every earlier publish succeeded, and every
earlier deadline check was within the deadline `start + T` — the call
returns success, before its deadline.  (iii) If no matching message ever
arrives (the flag is never set) and every publish succeeds, the first
deadline check whose clock exceeds `start + T` raises the barrier
timeout — at, not before, T seconds after the call started. -/
theorem C5_barrier (ackAt rcOk : Nat → Bool) (clockAt : Nat → Nat)
    (start T k K fuel key type_ : Nat) (b : Bool) :
    ((Async.handle_async_barrier (key, b) type_).2 = (b || decide (key = type_)) ∧
     (Async.handle_async_barrier (key, b) type_).1 = key) ∧
    (ackAt k = true →
     (∀ j < k, ackAt j = false) →
     (∀ j < k, rcOk j = true) →
     (∀ j < k, clockAt j ≤ start + T) →
     Async.barrierLoop ackAt rcOk clockAt (start + T) 0 (k + fuel + 1)
        = some (.ackObserved k)) ∧
    ((∀ j, ackAt j = false) →
     (∀ j, rcOk j = true) →
     start + T < clockAt K →
     (∀ j < K, clockAt j ≤ start + T) →
     Async.barrierLoop ackAt rcOk clockAt (start + T) 0 (K + fuel + 1)
        = some (.timedOut (clockAt K)) ∧ start + T < clockAt K) := by
  refine ⟨⟨?_, ?_⟩, ?_, ?_⟩
  · by_cases h : key = type_ <;> simp [Async.handle_async_barrier, h]
  · by_cases h : key = type_ <;> simp [Async.handle_async_barrier, h]
  · intro hk ha hr hc
    have h := Async.barrierLoop_ack ackAt rcOk clockAt (start + T) k 0 fuel
      (by simpa using hk) (fun j hj => by simpa using ha j hj)
      (fun j hj => by simpa using hr j hj)
      (fun j hj => by simpa using hc j hj)
    simpa using h
  · intro ha hr hK hc
    have h := Async.barrierLoop_deadline ackAt rcOk clockAt (start + T) K 0 fuel
      ha hr (by simpa using hK) (fun j hj => by simpa using hc j hj)
    exact ⟨by simpa using h, hK⟩

/-- Witness for C5: concrete runs of the barrier loop — the flag first
seen at iteration 2 yields success there; a never-set flag with the
clock reaching 6 > 5 at iteration 6 yields the timeout carrying that
clock; and a matching key acknowledges the token. -/
theorem C5_barrier_witness :
    Async.barrierLoop (fun j => decide (j = 2)) (fun _ => true) (fun _ => 0) 5 0 3
        = some (.ackObserved 2) ∧
    Async.barrierLoop (fun _ => false) (fun _ => true) (fun j => j) 5 0 7
        = some (.timedOut 6) ∧
    (Async.handle_async_barrier (7, false) 7).2 = true := by
  refine ⟨?_, ?_, ?_⟩
  · exact (C5_barrier (fun j => decide (j = 2)) (fun _ => true) (fun _ => 0)
      5 0 2 0 0 0 0 false).2.1 (by decide) (by decide) (by decide) (by decide)
  · exact ((C5_barrier (fun _ => false) (fun _ => true) (fun j => j)
      5 0 0 6 0 0 0 false).2.2 (fun _ => rfl) (fun _ => rfl) (by decide)
      (by decide)).1
  · exact (C5_barrier (fun _ => false) (fun _ => true) (fun j => j)
      5 0 0 6 0 7 7 false).1.1.trans (by decide)

/-- Claim C7, counterexample: from a fresh ACTIVE subscriber, receive
one message (the "alive" edge fires and `got_data` becomes true), call
`set_as_zombie`, then let the receive time out: the loop still fires the
"channel timeout" notification while zombied, because the `zmq.Again`
branch does not consult the ZOMBIE flag. -/
theorem C7_counterexample :
    (Async.runLoop
        (Async.set_as_zombie
          (Async.runLoop ⟨.active, true, false, [], none, none⟩
            [.recv 1 ⟨"trex-global", 0, "d", false⟩]).1)
        [.recvTimeout]).2 = [Async.Notif.timeoutNotif 3] := by
  rfl

/-- Claim C7, amended: after `set_as_zombie`, no further "channel alive"
notifications fire, and at most one "channel timeout" notification can
still fire — exactly when an alive edge had been signalled before
zombifying (`got_data` still set) and a receive timeout then occurs;
once `got_data` is clear (in particular from then on), a zombied
subscriber fires no notifications at all, in every interleaving of
received messages and receive timeouts. -/
theorem C7_zombie_notifications_amended (s : Async.AsyncState)
    (evs : List Async.Event) (hz : s.t_state = .zombie) :
    Async.Notif.alive ∉ (Async.runLoop s evs).2 ∧
    ((Async.runLoop s evs).2 = [] ∨
     (Async.runLoop s evs).2 = [Async.Notif.timeoutNotif 3]) ∧
    (s.got_data = false → (Async.runLoop s evs).2 = []) := by
  have h := Async.runLoop_zombie evs s hz
  refine ⟨?_, h.1, h.2.2.2⟩
  rcases h.1 with h1 | h1 <;> simp [h1]

/-- Witness for C7 (amended): a zombied subscriber with a pending alive
edge receiving one message and two timeouts fires exactly the one
pending timeout notification and nothing else. -/
theorem C7_zombie_notifications_amended_witness :
    Async.Notif.alive ∉ (Async.runLoop ⟨.zombie, true, true, [], none, none⟩
        [.recv 1 ⟨"trex-global", 0, "d", false⟩, .recvTimeout, .recvTimeout]).2 ∧
    ((Async.runLoop ⟨.zombie, true, true, [], none, none⟩
        [.recv 1 ⟨"trex-global", 0, "d", false⟩, .recvTimeout, .recvTimeout]).2 = [] ∨
     (Async.runLoop ⟨.zombie, true, true, [], none, none⟩
        [.recv 1 ⟨"trex-global", 0, "d", false⟩, .recvTimeout, .recvTimeout]).2
        = [Async.Notif.timeoutNotif 3]) ∧
    ((⟨.zombie, true, true, [], none, none⟩ : Async.AsyncState).got_data = false →
     (Async.runLoop ⟨.zombie, true, true, [], none, none⟩
        [.recv 1 ⟨"trex-global", 0, "d", false⟩, .recvTimeout, .recvTimeout]).2 = []) :=
  C7_zombie_notifications_amended ⟨.zombie, true, true, [], none, none⟩
    [.recv 1 ⟨"trex-global", 0, "d", false⟩, .recvTimeout, .recvTimeout] rfl

/-- Claim C8: while the subscriber is ZOMBIE, a received message is
drained — only `last_data_recv_ts` is recorded — and discarded: the
iteration invokes no dispatch handler and emits no notification, and
over any zombied run the latest-snapshot store and the barrier token are
never updated. -/
theorem C8_zombie_drain (s : Async.AsyncState) (evs : List Async.Event)
    (now : Nat) (m : Async.Msg) (hz : s.t_state = .zombie) :
    Async.loopStep s (.recv now m)
        = ({ s with last_data_recv_ts := some now }, []) ∧
    (Async.runLoop s evs).1.raw_snapshot = s.raw_snapshot ∧
    (Async.runLoop s evs).1.async_barrier = s.async_barrier := by
  have h := Async.runLoop_zombie evs s hz
  refine ⟨?_, h.2.1, h.2.2.1⟩
  simp [Async.loopStep, hz]

/-- Witness for C8: a zombied subscriber receiving a stats message only
records the receive timestamp and dispatches nothing. -/
theorem C8_zombie_drain_witness :
    Async.loopStep ⟨.zombie, true, false, [("a", "b")], some (5, false), none⟩
        (.recv 9 ⟨"trex-global", 0, "d", false⟩)
        = (⟨.zombie, true, false, [("a", "b")], some (5, false), some 9⟩, []) ∧
    (Async.runLoop ⟨.zombie, true, false, [("a", "b")], some (5, false), none⟩
        [.recv 9 ⟨"trex-global", 0, "d", false⟩]).1.raw_snapshot = [("a", "b")] ∧
    (Async.runLoop ⟨.zombie, true, false, [("a", "b")], some (5, false), none⟩
        [.recv 9 ⟨"trex-global", 0, "d", false⟩]).1.async_barrier
        = some (5, false) :=
  C8_zombie_drain ⟨.zombie, true, false, [("a", "b")], some (5, false), none⟩
    [.recv 9 ⟨"trex-global", 0, "d", false⟩] 9 ⟨"trex-global", 0, "d", false⟩ rfl

/-- Claim C9, counterexample: DEAD is not terminal — `connect` moves a
DEAD subscriber to ACTIVE (this is exactly the startup path: the
constructor initializes the state to DEAD), and `set_as_zombie` moves a
DEAD subscriber to ZOMBIE. -/
theorem C9_counterexample :
    ((⟨.dead, false, false, [], none, none⟩ : Async.AsyncState).t_state
        = .dead) ∧
    (Async.connect ⟨.dead, false, false, [], none, none⟩).t_state = .active ∧
    (Async.set_as_zombie ⟨.dead, false, false, [], none, none⟩).t_state
        = .zombie := by
  refine ⟨rfl, rfl, rfl⟩

/-- Claim C9, amended: `set_as_zombie` sets ZOMBIE from any state,
`disconnect` sets DEAD exactly when the subscriber is connected (and is
a no-op otherwise), `connect` (re)starts the loop in ACTIVE from any
state — including DEAD, which is how the constructor-DEAD subscriber is
started — and the receive loop itself never changes the state.  DEAD is
terminal only with respect to `disconnect` and the receive loop. -/
theorem C9_state_machine_amended (s : Async.AsyncState) (ev : Async.Event)
    (evs : List Async.Event) :
    (Async.set_as_zombie s).t_state = .zombie ∧
    (Async.disconnect s).t_state
        = (if s.connected then .dead else s.t_state) ∧
    (Async.connect s).t_state = .active ∧
    (Async.loopStep s ev).1.t_state = s.t_state ∧
    (Async.runLoop s evs).1.t_state = s.t_state := by
  refine ⟨rfl, ?_, rfl, Async.loopStep_t_state s ev, Async.runLoop_t_state evs s⟩
  by_cases h : s.connected <;> simp [Async.disconnect, h]

namespace Stats

lemma findPortSplit_cons (c : Char) (rest : List Char) :
    findPortSplit (c :: rest)
      = (match findPortSplit rest with
        | some (pre, d) => some (c :: pre, d)
        | none =>
            match rest with
            | d :: _ => if c = '-' ∧ isPortDigit d then some ([], d) else none
            | [] => none) := rfl

lemma containsDashDigit_cons (c d : Char) (t : List Char) :
    containsDashDigit (c :: d :: t)
      = (decide (c = '-') && isPortDigit d || containsDashDigit (d :: t)) := rfl

lemma findPortSplit_digit : ∀ (l pre : List Char) (d : Char),
    findPortSplit l = some (pre, d) → isPortDigit d = true
  | [], pre, d, h => by simp [findPortSplit] at h
  | c :: rest, pre, d, h => by
      rw [findPortSplit_cons] at h
      split at h
      · rename_i pre1 d1 heq
        simp only [Option.some.injEq, Prod.mk.injEq] at h
        obtain ⟨h1, h2⟩ := h
        subst h2
        exact findPortSplit_digit rest pre1 _ heq
      · split at h
        · split at h
          · rename_i d0 t heq hcond
            simp only [Option.some.injEq, Prod.mk.injEq] at h
            obtain ⟨h1, h2⟩ := h
            subst h2
            exact hcond.2
          · cases h
        · cases h

lemma findPortSplit_isSome : ∀ (l : List Char),
    (findPortSplit l).isSome = containsDashDigit l
  | [] => rfl
  | [c] => rfl
  | c :: d :: t => by
      have ih := findPortSplit_isSome (d :: t)
      show ((match findPortSplit (d :: t) with
        | some (pre, d1) => some (c :: pre, d1)
        | none =>
            match d :: t with
            | d1 :: _ => if c = '-' ∧ isPortDigit d1 then some ([], d1) else none
            | [] => none) : Option (List Char × Char)).isSome
          = (decide (c = '-') && isPortDigit d || containsDashDigit (d :: t))
      cases hres : findPortSplit (d :: t) with
      | some pd =>
          rw [hres] at ih
          obtain ⟨p2, d2⟩ := pd
          simp [← ih]
      | none =>
          rw [hres] at ih
          by_cases hc1 : c = '-' <;> by_cases hd1 : isPortDigit d = true <;>
            simp [hc1, hd1, ← ih]

lemma findPortSplit_eq_none (l : List Char) :
    findPortSplit l = none ↔ containsDashDigit l = false := by
  rw [← findPortSplit_isSome]
  cases h : findPortSplit l <;> simp

lemma containsDashDigit_append_dash9 : ∀ (l : List Char),
    containsDashDigit (l ++ ['-', '9']) = containsDashDigit l
  | [] => by decide
  | [c] => by
      have h1 : isPortDigit '-' = false := by decide
      have h2 : containsDashDigit ['-', '9'] = false := by decide
      show containsDashDigit [c, '-', '9'] = containsDashDigit [c]
      rw [containsDashDigit_cons, h1, h2]
      simp [containsDashDigit]
  | c :: d :: t => by
      have ih : containsDashDigit (d :: (t ++ ['-', '9']))
          = containsDashDigit (d :: t) := containsDashDigit_append_dash9 (d :: t)
      show containsDashDigit (c :: d :: (t ++ ['-', '9']))
          = containsDashDigit (c :: d :: t)
      rw [containsDashDigit_cons, containsDashDigit_cons, ih]

lemma mem_keys_updateAssoc {α β : Type} [DecidableEq α] :
    ∀ (l : List (α × β)) (k : α) (v : β) (k0 : α),
      (k0 ∈ (Async.updateAssoc l k v).map Prod.fst ↔
        k0 = k ∨ k0 ∈ l.map Prod.fst)
  | [], k, v, k0 => by simp [Async.updateAssoc]
  | (k1, v1) :: rest, k, v, k0 => by
      by_cases h : k1 = k
      · subst h
        simp [Async.updateAssoc]
        try tauto
      · simp [Async.updateAssoc, h, mem_keys_updateAssoc rest k v k0]
        try tauto

lemma routeItems_general_keys :
    ∀ (items : List (String × Int)) (g : List (String × Int))
      (p : List (Char × List (String × Int))) (key : String),
      (key ∈ ((routeItems g p items).1.map Prod.fst) ↔
        key ∈ g.map Prod.fst ∨
          (key ∈ items.map Prod.fst ∧ portMatch key = none))
  | [], g, p, key => by simp [routeItems]
  | (k1, v1) :: rest, g, p, key => by
      cases hm : portMatch k1 with
      | some fp =>
          simp only [routeItems, hm]
          rw [routeItems_general_keys rest g _ key]
          by_cases hk : key = k1
          · subst hk
            simp [hm]
          · simp [hk]
      | none =>
          simp only [routeItems, hm]
          rw [routeItems_general_keys rest _ p key,
            mem_keys_updateAssoc g k1 v1 key]
          by_cases hk : key = k1
          · subst hk
            simp [hm]
          · simp [hk]
            try tauto

lemma handle_snapshot_port_single (key : String) (v : Int) (pre : List Char)
    (d : Char) (h : findPortSplit key.data = some (pre, d)) :
    handle_snapshot [(key, v)] = ([], [(d, [(String.mk pre, v)])]) := by
  simp [handle_snapshot, routeItems, portMatch, h, Async.updateAssoc]

end Stats

/-- Claim C10: the snapshot router recognizes a key as per-port exactly
when the key contains a dash immediately followed by a single digit in
the range 0 through 8 (the `re.search(r"(.*)\-([0-8])", key)` match).
For every snapshot, a key appears in the general bucket precisely when
it occurs in the snapshot and does not match; appending "-9" to a
non-matching field never creates a match, so a key of the form
`<field>-9` is routed to the general bucket; a matching key is routed to
the per-port bucket of the matched digit, and that digit is always in
the range 0-8 — per-port partitioning supports only port indices 0
through 8. -/
theorem C10_port_routing (snapshot : List (String × Int)) (key field : String)
    (v : Int) (pre : List Char) (d : Char) :
    (Stats.findPortSplit key.data = none ↔
        Stats.containsDashDigit key.data = false) ∧
    (key ∈ ((Stats.handle_snapshot snapshot).1.map Prod.fst) ↔
        (key ∈ snapshot.map Prod.fst ∧ Stats.portMatch key = none)) ∧
    (Stats.findPortSplit key.data = some (pre, d) →
        Stats.handle_snapshot [(key, v)] = ([], [(d, [(String.mk pre, v)])]) ∧
        Stats.isPortDigit d = true) ∧
    Stats.containsDashDigit (field ++ "-9").data
        = Stats.containsDashDigit field.data := by
  refine ⟨Stats.findPortSplit_eq_none key.data, ?_, ?_, ?_⟩
  · have h := Stats.routeItems_general_keys snapshot [] [] key
    simpa [Stats.handle_snapshot] using h
  · intro h
    exact ⟨Stats.handle_snapshot_port_single key v pre d h,
      Stats.findPortSplit_digit key.data pre d h⟩
  · rw [String.data_append]
    exact Stats.containsDashDigit_append_dash9 field.data

/-- Witness for C10: "opackets-9" has no dash-digit-0-8 match and is
routed to the general bucket of a mixed snapshot, while "opackets-3" is
routed to the per-port bucket of port 3. -/
theorem C10_port_routing_witness :
    Stats.handle_snapshot [("opackets-3", (5 : Int))]
        = ([], [('3', [("opackets", 5)])]) ∧
    Stats.isPortDigit '3' = true ∧
    ("opackets-9" ∈ ((Stats.handle_snapshot
        [("cpu", (10 : Int)), ("opackets-9", 5)]).1.map Prod.fst)) := by
  refine ⟨?_, ?_, ?_⟩
  · exact ((C10_port_routing [] "opackets-3" "" 5 "opackets".data '3').2.2.1
      (by decide)).1
  · exact ((C10_port_routing [] "opackets-3" "" 5 "opackets".data '3').2.2.1
      (by decide)).2
  · exact ((C10_port_routing [("cpu", (10 : Int)), ("opackets-9", 5)]
      "opackets-9" "" 5 [] '0').2.1).mpr (by decide)

end PyTRex
